import Mathlib

/-!
Shallow embedding of the raytracer repository (src/lib.rs, src/scene.rs,
src/view.rs) for checking its natural-language specification.

Numeric model: the sources `f32` scalars are modelled by exact rationals
(ℚ).  The three transcendental operations the source calls on `f32`
(`sqrt`, `tan`, and the constant `PI`) have no exact rational counterpart,
so they are abstracted into an explicit parameter record `FloatOps` that is
threaded through every definition exactly where the source calls the
corresponding `f32` operation.  Theorems that depend on the meaning of
`sqrt` state the needed algebraic facts as hypotheses; theorems that do not
hold for every `FloatOps`.

The `f32` value `INFINITY`, used by the source as a "no hit" sentinel
distance, is modelled by `⊤` in `WithTop ℚ`, whose order agrees with the
`f32` comparisons the source performs on distances (`∞ < ∞` is false,
`0 < ∞` is true).
-/

/-- The `f32` operations with no exact rational counterpart, abstracted. -/
structure FloatOps where
  sqrt : ℚ → ℚ
  tan : ℚ → ℚ
  pi : ℚ

/-- `Vecf = Vector3<f32>` (src/lib.rs). -/
structure Vec3 where
  x : ℚ
  y : ℚ
  z : ℚ
deriving DecidableEq, Repr

/-- vecmath `vec3_add`. -/
def vec3_add (a b : Vec3) : Vec3 := ⟨a.x + b.x, a.y + b.y, a.z + b.z⟩

/-- vecmath `vec3_sub`. -/
def vec3_sub (a b : Vec3) : Vec3 := ⟨a.x - b.x, a.y - b.y, a.z - b.z⟩

/-- vecmath `vec3_neg`. -/
def vec3_neg (a : Vec3) : Vec3 := ⟨-a.x, -a.y, -a.z⟩

/-- vecmath `vec3_scale`. -/
def vec3_scale (a : Vec3) (k : ℚ) : Vec3 := ⟨a.x * k, a.y * k, a.z * k⟩

/-- vecmath `vec3_dot`. -/
def vec3_dot (a b : Vec3) : ℚ := a.x * b.x + a.y * b.y + a.z * b.z

/-- vecmath `vec3_cross`. -/
def vec3_cross (a b : Vec3) : Vec3 :=
  ⟨a.y * b.z - a.z * b.y, a.z * b.x - a.x * b.z, a.x * b.y - a.y * b.x⟩

/-- vecmath `vec3_square_len`. -/
def vec3_square_len (a : Vec3) : ℚ := vec3_dot a a

/-- vecmath `vec3_len` (calls `f32::sqrt`, abstracted by `F.sqrt`). -/
def vec3_len (F : FloatOps) (a : Vec3) : ℚ := F.sqrt (vec3_square_len a)

/-- vecmath `vec3_normalized`: scale by the inverse length. -/
def vec3_normalized (F : FloatOps) (a : Vec3) : Vec3 :=
  vec3_scale a (1 / vec3_len F a)

/-- `Color = Rgb<u8>` (src/lib.rs); channel bytes modelled as ℕ. -/
structure Rgb where
  r : ℕ
  g : ℕ
  b : ℕ
deriving DecidableEq, Repr

/-- The `[f32; 3]` accumulator `pixel_color` of the render loop. -/
structure PixColor where
  r : ℚ
  g : ℚ
  b : ℚ
deriving DecidableEq, Repr

/-- `Ray` (src/view.rs). -/
structure Ray where
  direction : Vec3
  origin : Vec3
deriving DecidableEq, Repr

/-- `Ray::new` (src/view.rs): normalizes the direction at construction. -/
def Ray.new (F : FloatOps) (origin direction : Vec3) : Ray :=
  ⟨vec3_normalized F direction, origin⟩

/-- `Light` (src/scene.rs). -/
structure Light where
  position : Vec3
  intensity : ℚ
deriving DecidableEq, Repr

/-- `Sphere` (src/scene.rs). -/
structure Sphere where
  position : Vec3
  color : Rgb
  radius : ℚ
  sq_radius : ℚ
  lambert : ℚ
  specular : ℚ
deriving DecidableEq, Repr

/-- `Sphere::new` (src/scene.rs): caches the squared radius. -/
def Sphere.new (position : Vec3) (color : Rgb) (radius lambert specular : ℚ) :
    Sphere :=
  ⟨position, color, radius, radius * radius, lambert, specular⟩

/-- `Plane` (src/scene.rs).  `width`/`height` are `f32` that `Plane::new`
sets to `INFINITY`, hence `WithTop ℚ`. -/
structure Plane where
  point : Vec3
  color : Rgb
  normal : Vec3
  width : WithTop ℚ
  height : WithTop ℚ
  lambert : ℚ
  specular : ℚ
deriving DecidableEq, Repr

/-- `Plane::new` (src/scene.rs): infinite width/height, normal normalized. -/
def Plane.new (F : FloatOps) (color : Rgb) (normal point : Vec3)
    (lambert specular : ℚ) : Plane :=
  ⟨point, color, vec3_normalized F normal, ⊤, ⊤, lambert, specular⟩

/-- The `dyn Object` trait objects: a closed sum of the two variants. -/
inductive Object where
  | sphere (s : Sphere)
  | plane (p : Plane)
deriving DecidableEq, Repr

/-- `Scene` (src/scene.rs). -/
structure Scene where
  objects : List Object
  lights : List Light
deriving DecidableEq, Repr

/-- `Scene::addObject` (src/scene.rs): push at the back. -/
def Scene.addObject (s : Scene) (o : Object) : Scene :=
  ⟨s.objects ++ [o], s.lights⟩

/-- `Scene::addLight` (src/scene.rs): push at the back. -/
def Scene.addLight (s : Scene) (l : Light) : Scene :=
  ⟨s.objects, s.lights ++ [l]⟩

/-- `impl Object for Sphere`, `fn intersect` (src/scene.rs lines 95-109).
The source computes `hit_position` by scaling the direction with the
possibly-infinite `distance`; for an infinite distance the `f32` result has
non-finite components that no caller ever reads, modelled here by scaling
with `untop' 0`. -/
def Sphere.intersect (F : FloatOps) (s : Sphere) (ray : Ray) :
    WithTop ℚ × Vec3 :=
  let from_ray_origin := vec3_sub s.position ray.origin
  let on_ray_midpoint := vec3_dot from_ray_origin ray.direction
  let distance : WithTop ℚ :=
    if 0 < on_ray_midpoint then
      let c_center_to_midpoint :=
        vec3_square_len from_ray_origin - on_ray_midpoint * on_ray_midpoint
      if c_center_to_midpoint < s.sq_radius then
        ((on_ray_midpoint - F.sqrt (s.sq_radius - c_center_to_midpoint) : ℚ) :
          WithTop ℚ)
      else ⊤
    else ⊤
  (distance, vec3_add ray.origin (vec3_scale ray.direction (distance.untop' 0)))

/-- `Sphere::normal_to` (src/scene.rs): unit vector from the center to the
ray origin (the hit point by convention). -/
def Sphere.normal_to (F : FloatOps) (s : Sphere) (hit_ray : Ray) : Vec3 :=
  vec3_normalized F (vec3_sub hit_ray.origin s.position)

/-- `Sphere::reflect_ray` (src/scene.rs lines 131-137). -/
def Sphere.reflect_ray (F : FloatOps) (s : Sphere) (ray : Ray) (point : Vec3) :
    Ray :=
  let temp_ray := Ray.new F point ray.direction
  let reflection := 2 * vec3_dot ray.direction (s.normal_to F temp_ray)
  let reflected_ray := vec3_scale (s.normal_to F temp_ray) reflection
  Ray.new F point (vec3_sub ray.direction reflected_ray)

/-- `impl Object for Plane`, `fn intersect` (src/scene.rs lines 195-210).
Width and height are never read. -/
def Plane.intersect (F : FloatOps) (p : Plane) (ray : Ray) :
    WithTop ℚ × Vec3 :=
  let norm_ray_dot := vec3_dot ray.direction p.normal
  let distance : WithTop ℚ :=
    if 1 / 1000000 < norm_ray_dot then
      let to_center := vec3_sub p.point ray.origin
      let new_distance := vec3_dot to_center p.normal / norm_ray_dot
      if 0 < new_distance then ((new_distance : ℚ) : WithTop ℚ) else ⊤
    else ⊤
  (distance, vec3_add ray.origin (vec3_scale ray.direction (distance.untop' 0)))

/-- `Plane::normal_to` (src/scene.rs): the stored normal, flipped to face
the incoming ray. -/
def Plane.normal_to (p : Plane) (hit_ray : Ray) : Vec3 :=
  if vec3_dot hit_ray.direction p.normal < 0 then p.normal
  else vec3_neg p.normal

/-- `Plane::reflect_ray` (src/scene.rs lines 236-241). -/
def Plane.reflect_ray (F : FloatOps) (p : Plane) (ray : Ray) (point : Vec3) :
    Ray :=
  let reflection := 2 * vec3_dot ray.direction (p.normal_to ray)
  let reflected_ray := vec3_scale (p.normal_to ray) reflection
  Ray.new F point (vec3_sub ray.direction reflected_ray)

/-- Dynamic dispatch of `Object::intersect`. -/
def Object.intersect (F : FloatOps) (o : Object) (ray : Ray) :
    WithTop ℚ × Vec3 :=
  match o with
  | .sphere s => s.intersect F ray
  | .plane p => p.intersect F ray

/-- Dynamic dispatch of `Object::get_color`. -/
def Object.get_color (o : Object) : Rgb :=
  match o with
  | .sphere s => s.color
  | .plane p => p.color

/-- Dynamic dispatch of `Object::normal_to`. -/
def Object.normal_to (F : FloatOps) (o : Object) (hit_ray : Ray) : Vec3 :=
  match o with
  | .sphere s => s.normal_to F hit_ray
  | .plane p => p.normal_to hit_ray

/-- Dynamic dispatch of `Object::get_lambert`. -/
def Object.get_lambert (o : Object) : ℚ :=
  match o with
  | .sphere s => s.lambert
  | .plane p => p.lambert

/-- Dynamic dispatch of `Object::get_specular`. -/
def Object.get_specular (o : Object) : ℚ :=
  match o with
  | .sphere s => s.specular
  | .plane p => p.specular

/-- Dynamic dispatch of `Object::reflect_ray`. -/
def Object.reflect_ray (F : FloatOps) (o : Object) (ray : Ray) (point : Vec3) :
    Ray :=
  match o with
  | .sphere s => s.reflect_ray F ray point
  | .plane p => p.reflect_ray F ray point

/-- `View` (src/view.rs). -/
structure View where
  image_width : ℕ
  image_height : ℕ
  cam_position : Vec3
  fov_rad : ℚ
  direction : Vec3
  max_depth : ℕ
  background : Rgb
  shadow_bias : ℚ
deriving DecidableEq, Repr

/-- `View::new` (src/view.rs): degrees to radians via the abstracted `PI`,
direction normalized. -/
def View.new (F : FloatOps) (image_width image_height : ℕ)
    (cam_position : Vec3) (fov : ℚ) (direction : Vec3) (max_depth : ℕ)
    (background : Rgb) (shadow_bias : ℚ) : View :=
  ⟨image_width, image_height, cam_position, fov * F.pi / 180,
    vec3_normalized F direction, max_depth, background, shadow_bias⟩

/-- The loop body of `View::trace` (src/view.rs lines 120-131): scan the
remaining objects keeping the current minimum distance and best candidate. -/
def traceAux (F : FloatOps) (ray : Ray) :
    List Object → WithTop ℚ → Option (Vec3 × WithTop ℚ × Object) →
      Option (Vec3 × WithTop ℚ × Object)
  | [], _, closest_object => closest_object
  | o :: rest, min_dist, closest_object =>
    let r := o.intersect F ray
    if r.1 < min_dist ∧ 0 < r.1 then
      traceAux F ray rest r.1 (some (r.2, r.1, o))
    else
      traceAux F ray rest min_dist closest_object

/-- `View::trace` (src/view.rs lines 120-131): `min_dist` starts at
`f32::INFINITY`, no candidate. -/
def View.trace (F : FloatOps) (scene : Scene) (ray : Ray) :
    Option (Vec3 × WithTop ℚ × Object) :=
  traceAux F ray scene.objects ⊤ none

/-- `View::all_intersects` (src/view.rs lines 133-143): collect the
distances with `distance > 0.0 && distance != f32::INFINITY` in scan order,
then sort ascending (the source calls the standard stable `sort_by` with
`partial_cmp`; modelled by insertion sort, a stable ascending sort). -/
def View.all_intersects (F : FloatOps) (scene : Scene) (ray : Ray) : List ℚ :=
  let intersects := scene.objects.foldl
    (fun acc o =>
      let r := o.intersect F ray
      if 0 < r.1 ∧ r.1 ≠ ⊤ then acc ++ [r.1.untop' 0] else acc) []
  List.insertionSort (· ≤ ·) intersects

/-- The body of the per-light loop of `View::lambert_shade` (src/view.rs
lines 147-169): one light is processed, updating the running
`lambert_amount` accumulator. -/
def lambertBody (F : FloatOps) (v : View) (scene : Scene) (o : Object)
    (point : Vec3) (acc : ℚ) (light : Light) : ℚ :=
  let dist_vec := vec3_sub light.position point
  let dir_to_light := vec3_normalized F dist_vec
  let dist_to_light := vec3_len F dist_vec
  let shadow_point := vec3_add point (vec3_scale dir_to_light v.shadow_bias)
  let blocked :=
    (View.all_intersects F scene (Ray.new F shadow_point dir_to_light)).any
      (fun i => decide (i < dist_to_light))
  if blocked then acc
  else
    let contribution := vec3_dot dir_to_light
      (o.normal_to F (Ray.new F point (vec3_neg dir_to_light)))
    if 0 < contribution then
      acc + contribution * (light.intensity / (4 * F.pi * dist_to_light ^ 2))
    else acc

/-- `View::lambert_shade` (src/view.rs lines 145-171): fold the per-light
loop body over the lights from 0, then clamp with `.min(1.0)`. -/
def View.lambert_shade (F : FloatOps) (v : View) (scene : Scene) (o : Object)
    (point : Vec3) : ℚ :=
  let lambert_amount := scene.lights.foldl (lambertBody F v scene o point) 0
  min lambert_amount 1

/-- `View::color_trace` (src/view.rs lines 95-118), with the mutation of
`reflection_coef`, `ray` and `current_color` made explicit: returns the
continue flag together with their updated values. -/
def View.color_trace (F : FloatOps) (v : View) (scene : Scene)
    (reflection_coef : ℚ) (ray : Ray) (current_color : PixColor) :
    Bool × ℚ × Ray × PixColor :=
  match View.trace F scene ray with
  | some (hit_point, _, hit_object) =>
    let object_color := hit_object.get_color
    let light := v.lambert_shade F scene hit_object hit_point
    let ray' := hit_object.reflect_ray F ray hit_point
    let color' : PixColor :=
      ⟨current_color.r +
          (object_color.r : ℚ) / 255 * light * hit_object.get_lambert *
            reflection_coef,
        current_color.g +
          (object_color.g : ℚ) / 255 * light * hit_object.get_lambert *
            reflection_coef,
        current_color.b +
          (object_color.b : ℚ) / 255 * light * hit_object.get_lambert *
            reflection_coef⟩
    (true, reflection_coef * hit_object.get_specular, ray', color')
  | none => (false, reflection_coef, ray, current_color)

/-- The per-pixel bounce loop of `View::render` (src/view.rs lines 77-84):
`while depth < max_depth && reflection_coef > 0.0`, breaking when
`color_trace` returns false.  The fuel is `max_depth - depth`. -/
def colorLoop (F : FloatOps) (v : View) (scene : Scene) :
    ℕ → ℚ → Ray → PixColor → PixColor
  | 0, _, _, pixel_color => pixel_color
  | fuel + 1, reflection_coef, ray, pixel_color =>
    if 0 < reflection_coef then
      let r := v.color_trace F scene reflection_coef ray pixel_color
      if r.1 then colorLoop F v scene fuel r.2.1 r.2.2.1 r.2.2.2
      else pixel_color
    else pixel_color

/-- The `f32` to `u8` cast `(c * 255.0) as u8` of src/view.rs line 87:
a Rust float-to-integer `as` cast saturates at the integer bounds and
truncates toward zero in between. -/
def f32_to_u8 (q : ℚ) : ℕ :=
  if q ≤ 0 then 0 else if 255 ≤ q then 255 else q.floor.toNat

/-- Quantization of one accumulator channel (src/view.rs lines 85-88). -/
def quantizeChannel (q : ℚ) : ℕ := f32_to_u8 (q * 255)

/-- Quantization of the accumulated pixel color into output bytes. -/
def quantize (c : PixColor) : Rgb :=
  ⟨quantizeChannel c.r, quantizeChannel c.g, quantizeChannel c.b⟩

/-- The primary ray built for pixel `(x, y)` in `View::render`
(src/view.rs lines 58-75). -/
def View.primaryRay (F : FloatOps) (v : View) (x y : ℕ) : Ray :=
  let img_height : ℚ := v.image_height
  let img_width : ℚ := v.image_width
  let cam_right := vec3_normalized F (vec3_cross ⟨0, 1, 0⟩ v.direction)
  let cam_up := vec3_normalized F (vec3_cross cam_right v.direction)
  let cam_half_width := F.tan (v.fov_rad / 2)
  let cam_half_height := cam_half_width * (img_height / img_width)
  let pixel_width := cam_half_width * 2 / img_width
  let pixel_height := cam_half_height * 2 / img_height
  let vec_x_pixel := vec3_scale cam_right (pixel_width * x - cam_half_width)
  let vec_y_pixel := vec3_scale cam_up (pixel_height * y - cam_half_height)
  let vec_translate := vec3_add vec_x_pixel vec_y_pixel
  Ray.new F v.cam_position
    (vec3_normalized F (vec3_add v.direction vec_translate))

/-- The pixel written at `(x, y)` by `View::render` (src/view.rs lines
67-90): run the bounce loop from a zero accumulator, weight 1, then
quantize. -/
def View.renderPixel (F : FloatOps) (v : View) (scene : Scene) (x y : ℕ) :
    Rgb :=
  quantize (colorLoop F v scene v.max_depth 1 (v.primaryRay F x y) ⟨0, 0, 0⟩)

/-- `View::render` (src/view.rs lines 56-93): the output buffer, as the
column-major list of pixels the double loop writes (outer `x`, inner `y`). -/
def View.render (F : FloatOps) (v : View) (scene : Scene) : List (List Rgb) :=
  (List.range v.image_width).map
    (fun x => (List.range v.image_height).map (fun y => v.renderPixel F scene x y))

/-- The per-light quantity of the specified `lambert_shade` accumulation:
zero for a light whose shadow ray meets a strictly closer intersection,
otherwise `contribution * intensity / (4 pi dist^2)` when the contribution
(the dot product of the direction to the light with the surface normal
facing the light) is positive, and zero otherwise. -/
def lightTerm (F : FloatOps) (v : View) (scene : Scene) (o : Object)
    (point : Vec3) (light : Light) : ℚ :=
  let dist_vec := vec3_sub light.position point
  let dir_to_light := vec3_normalized F dist_vec
  let dist_to_light := vec3_len F dist_vec
  let shadow_point := vec3_add point (vec3_scale dir_to_light v.shadow_bias)
  if (View.all_intersects F scene (Ray.new F shadow_point dir_to_light)).any
      (fun i => decide (i < dist_to_light)) then 0
  else
    let contribution := vec3_dot dir_to_light
      (o.normal_to F (Ray.new F point (vec3_neg dir_to_light)))
    if 0 < contribution then
      contribution * (light.intensity / (4 * F.pi * dist_to_light ^ 2))
    else 0

/-- A concrete `FloatOps` for evaluating the model on concrete scenes:
a table square root exact on the perfect squares that arise, the sample
value 2 for the tangent, and 3 for pi. -/
def evalF : FloatOps :=
  ⟨fun q => if q = 1 then 1 else if q = 4 then 2 else if q = 9 then 3 else 0,
    fun _ => 2, 3⟩

/-- An empty scene. -/
def scene0 : Scene := ⟨[], []⟩

/-- A one-pixel view with `max_depth = 0`. -/
def view0 : View :=
  ⟨1, 1, ⟨0, 0, 0⟩, 3 / 2, ⟨0, 0, 1⟩, 0, ⟨50, 100, 200⟩, 1 / 1000⟩

/-- A red unit sphere at distance 5 straight ahead of the origin. -/
def oneSphere : Object := .sphere (Sphere.new ⟨0, 0, 5⟩ ⟨255, 0, 0⟩ 1 (9 / 10) 0)

/-- A red unit sphere at distance 3 straight ahead of the origin. -/
def objNear : Object := .sphere (Sphere.new ⟨0, 0, 3⟩ ⟨255, 0, 0⟩ 1 1 0)

/-- A scene holding only `oneSphere` and one light. -/
def sceneC7 : Scene := ⟨[oneSphere], [⟨⟨0, 0, 1⟩, 20⟩]⟩

/-- The ray from the origin straight along the z axis. -/
def rayZ : Ray := ⟨⟨0, 0, 1⟩, ⟨0, 0, 0⟩⟩

/-- The end-to-end scene of the spec: one red sphere (lambert 0.9,
specular 0) ahead of the camera and one light of intensity 20 in front of
it. -/
def scene8 : Scene :=
  ⟨[.sphere (Sphere.new ⟨0, 0, 3⟩ ⟨255, 0, 0⟩ (1 / 5) (9 / 10) 0)],
    [⟨⟨0, 0, 1⟩, 20⟩]⟩

/-- A 2 x 2 view facing the sphere of `scene8`, fov 90 degrees, with a
non-black configured background color. -/
def view8 : View :=
  View.new evalF 2 2 ⟨0, 0, 0⟩ 90 ⟨0, 0, 1⟩ 12 ⟨50, 100, 200⟩ (1 / 1000)

/-- A scene whose only object blocks its only light from the origin. -/
def sceneB : Scene := ⟨[objNear], [⟨⟨0, 0, 3⟩, 20⟩]⟩

/-! ### Helper lemmas about the vector algebra -/

theorem vec3_dot_scale_left (a b : Vec3) (k : ℚ) :
    vec3_dot (vec3_scale a k) b = k * vec3_dot a b := by
  simp only [vec3_dot, vec3_scale]; ring

theorem vec3_square_len_scale (a : Vec3) (k : ℚ) :
    vec3_square_len (vec3_scale a k) = k * k * vec3_square_len a := by
  simp only [vec3_square_len, vec3_dot, vec3_scale]; ring

/-- Evaluation form of the hit branch of `Sphere.intersect`. -/
theorem sphere_hit_eval (F : FloatOps) (s : Sphere) (ray : Ray) (dval : ℚ)
    (h1 : 0 < vec3_dot (vec3_sub s.position ray.origin) ray.direction)
    (h2 : vec3_square_len (vec3_sub s.position ray.origin) -
        vec3_dot (vec3_sub s.position ray.origin) ray.direction *
          vec3_dot (vec3_sub s.position ray.origin) ray.direction <
        s.sq_radius)
    (h3 : vec3_dot (vec3_sub s.position ray.origin) ray.direction -
        F.sqrt (s.sq_radius -
          (vec3_square_len (vec3_sub s.position ray.origin) -
            vec3_dot (vec3_sub s.position ray.origin) ray.direction *
              vec3_dot (vec3_sub s.position ray.origin) ray.direction)) =
        dval) :
    s.intersect F ray = ((dval : WithTop ℚ),
      vec3_add ray.origin (vec3_scale ray.direction dval)) := by
  simp only [Sphere.intersect]
  rw [if_pos h1, if_pos h2, WithTop.untop'_coe, h3]

/-- C2: for every ray and sphere, `Sphere.intersect` returns distance
`+infinity` when the projection of (center - ray origin) onto the ray
direction is non-positive, or when the squared perpendicular distance from
the center to the ray line is at least the squared radius; otherwise it
returns distance `projection - sqrt(radius^2 - perp^2)` (the near root
only) together with the hit point `origin + direction * distance`; and a
ray aimed directly at the center from outside returns hit distance
(distance from origin to center) minus radius. -/
theorem sphere_intersect_spec (F : FloatOps) (p : Vec3) (c : Rgb)
    (r la sp : ℚ) (ray : Ray) :
    (vec3_dot (vec3_sub p ray.origin) ray.direction ≤ 0 ∨
        r * r ≤ vec3_square_len (vec3_sub p ray.origin) -
          vec3_dot (vec3_sub p ray.origin) ray.direction *
            vec3_dot (vec3_sub p ray.origin) ray.direction →
      ((Sphere.new p c r la sp).intersect F ray).1 = ⊤)
    ∧ (0 < vec3_dot (vec3_sub p ray.origin) ray.direction →
        vec3_square_len (vec3_sub p ray.origin) -
            vec3_dot (vec3_sub p ray.origin) ray.direction *
              vec3_dot (vec3_sub p ray.origin) ray.direction < r * r →
        (Sphere.new p c r la sp).intersect F ray =
          (((vec3_dot (vec3_sub p ray.origin) ray.direction -
              F.sqrt (r * r - (vec3_square_len (vec3_sub p ray.origin) -
                vec3_dot (vec3_sub p ray.origin) ray.direction *
                  vec3_dot (vec3_sub p ray.origin) ray.direction)) : ℚ) :
              WithTop ℚ),
            vec3_add ray.origin (vec3_scale ray.direction
              (vec3_dot (vec3_sub p ray.origin) ray.direction -
                F.sqrt (r * r - (vec3_square_len (vec3_sub p ray.origin) -
                  vec3_dot (vec3_sub p ray.origin) ray.direction *
                    vec3_dot (vec3_sub p ray.origin) ray.direction))))))
    ∧ (∀ L : ℚ, vec3_dot ray.direction ray.direction = 1 →
        vec3_sub p ray.origin = vec3_scale ray.direction L →
        0 < r → r < L → F.sqrt (r * r) = r →
        ((Sphere.new p c r la sp).intersect F ray).1 =
          ((L - r : ℚ) : WithTop ℚ)) := by
  refine ⟨?_, ?_, ?_⟩
  · intro h
    rcases h with h | h
    · simp only [Sphere.intersect, Sphere.new]
      rw [if_neg (not_lt.2 h)]
    · simp only [Sphere.intersect, Sphere.new]
      by_cases hd : 0 < vec3_dot (vec3_sub p ray.origin) ray.direction
      · rw [if_pos hd, if_neg (not_lt.2 h)]
      · rw [if_neg hd]
  · intro h1 h2
    simp only [Sphere.intersect, Sphere.new]
    rw [if_pos h1, if_pos h2, WithTop.untop'_coe]
  · intro L h1 h2 hr hrL hsqrt
    have hL : 0 < L := lt_trans hr hrL
    have hd : vec3_dot (vec3_scale ray.direction L) ray.direction = L := by
      rw [vec3_dot_scale_left, h1, mul_one]
    have hq : vec3_square_len (vec3_scale ray.direction L) - L * L = 0 := by
      rw [vec3_square_len_scale]
      simp only [vec3_square_len]
      rw [h1]; ring
    simp only [Sphere.intersect, Sphere.new]
    rw [h2, hd, if_pos hL, hq, if_pos (mul_pos hr hr), sub_zero, hsqrt]

/-- C3: for every ray and plane, `Plane.intersect` returns a finite
distance `t = ((point - origin) . normal) / (direction . normal)` exactly
when `direction . normal > 1e-6` and `t > 0`; otherwise it returns
`+infinity`; and the stored width/height never restrict the accepted
hits. -/
theorem plane_intersect_spec (F : FloatOps) (pt : Vec3) (c : Rgb) (n : Vec3)
    (w h : WithTop ℚ) (la sp : ℚ) (ray : Ray) :
    (((Plane.mk pt c n w h la sp).intersect F ray).1 ≠ ⊤ ↔
      (1 / 1000000 < vec3_dot ray.direction n ∧
        0 < vec3_dot (vec3_sub pt ray.origin) n / vec3_dot ray.direction n))
    ∧ (1 / 1000000 < vec3_dot ray.direction n →
        0 < vec3_dot (vec3_sub pt ray.origin) n / vec3_dot ray.direction n →
        ((Plane.mk pt c n w h la sp).intersect F ray).1 =
          ((vec3_dot (vec3_sub pt ray.origin) n / vec3_dot ray.direction n :
            ℚ) : WithTop ℚ))
    ∧ (∀ w2 h2 : WithTop ℚ,
        (Plane.mk pt c n w2 h2 la sp).intersect F ray =
          (Plane.mk pt c n w h la sp).intersect F ray) := by
  refine ⟨?_, ?_, ?_⟩
  · constructor
    · intro hne
      simp only [Plane.intersect] at hne
      by_cases hdot : 1 / 1000000 < vec3_dot ray.direction n
      · rw [if_pos hdot] at hne
        by_cases ht : 0 < vec3_dot (vec3_sub pt ray.origin) n /
            vec3_dot ray.direction n
        · exact ⟨hdot, ht⟩
        · rw [if_neg ht] at hne; exact absurd rfl hne
      · rw [if_neg hdot] at hne; exact absurd rfl hne
    · intro ⟨hdot, ht⟩
      simp only [Plane.intersect]
      rw [if_pos hdot, if_pos ht]
      exact WithTop.coe_ne_top
  · intro hdot ht
    simp only [Plane.intersect]
    rw [if_pos hdot, if_pos ht]
  · intro w2 h2
    simp only [Plane.intersect]

/-- C7: `color_trace` on a miss returns false leaving the reflection
weight, ray and accumulator unchanged; on a hit it returns true, adds
`object_color/255 * lambert_factor * object.lambert * reflection_weight`
to each channel, replaces the ray with the reflected ray at the hit point
and multiplies the reflection weight by the specular coefficient. -/
theorem color_trace_spec (F : FloatOps) (v : View) (scene : Scene)
    (coef : ℚ) (ray : Ray) (col : PixColor) :
    (View.trace F scene ray = none →
      v.color_trace F scene coef ray col = (false, coef, ray, col))
    ∧ (∀ (hp : Vec3) (d : WithTop ℚ) (o : Object),
        View.trace F scene ray = some (hp, d, o) →
        v.color_trace F scene coef ray col =
          (true, coef * o.get_specular, o.reflect_ray F ray hp,
            ⟨col.r + (o.get_color.r : ℚ) / 255 *
                (v.lambert_shade F scene o hp) * o.get_lambert * coef,
              col.g + (o.get_color.g : ℚ) / 255 *
                (v.lambert_shade F scene o hp) * o.get_lambert * coef,
              col.b + (o.get_color.b : ℚ) / 255 *
                (v.lambert_shade F scene o hp) * o.get_lambert * coef⟩)) := by
  constructor
  · intro h
    simp only [View.color_trace, h]
  · intro hp d o h
    simp only [View.color_trace, h]

/-- C10: the quantization `(channel * 255.0) as u8` used by `render` is a
saturating, total cast: channels at least 1 map to exactly 255, channels
at most 0 map to 0, channels in between truncate toward zero, and the
result never exceeds 255 (no wrap modulo 256). -/
theorem quantize_saturates (F : FloatOps) (q : ℚ) :
    (1 ≤ q → quantizeChannel q = 255)
    ∧ (q ≤ 0 → quantizeChannel q = 0)
    ∧ (0 < q → q < 1 → quantizeChannel q = (q * 255).floor.toNat)
    ∧ quantizeChannel q ≤ 255
    ∧ (∀ (v : View) (scene : Scene) (x y : ℕ),
        View.renderPixel F v scene x y =
          quantize (colorLoop F v scene v.max_depth 1
            (v.primaryRay F x y) ⟨0, 0, 0⟩)) := by
  refine ⟨?_, ?_, ?_, ?_, fun v scene x y => rfl⟩
  · intro h
    have h0 : ¬ q * 255 ≤ 0 := by nlinarith
    have h255 : (255 : ℚ) ≤ q * 255 := by nlinarith
    simp only [quantizeChannel, f32_to_u8, if_neg h0, if_pos h255]
  · intro h
    have h0 : q * 255 ≤ 0 := by nlinarith
    simp only [quantizeChannel, f32_to_u8, if_pos h0]
  · intro h1 h2
    have h0 : ¬ q * 255 ≤ 0 := by nlinarith
    have h255 : ¬ (255 : ℚ) ≤ q * 255 := by nlinarith
    simp only [quantizeChannel, f32_to_u8, if_neg h0, if_neg h255]
  · simp only [quantizeChannel, f32_to_u8]
    split_ifs with h0 h255
    · exact Nat.zero_le 255
    · exact le_refl 255
    · have hlt : q * 255 < 255 := lt_of_not_le h255
      have hfl : ((q * 255).floor : ℚ) ≤ q * 255 := Rat.le_floor.mp (le_refl _)
      have : ((q * 255).floor : ℚ) < 255 := lt_of_le_of_lt hfl hlt
      have hz : (q * 255).floor < 255 := by exact_mod_cast this
      omega

/-- C9: every ray built by the `Ray` constructor has a unit-length
direction whenever the abstracted square root is exact and non-zero on the
squared length of the requested direction; and all rays the program builds
(primary rays, sphere reflections, plane reflections) go through this
constructor. -/
theorem ray_direction_unit (F : FloatOps) (o d : Vec3)
    (h1 : F.sqrt (vec3_square_len d) * F.sqrt (vec3_square_len d) =
      vec3_square_len d)
    (h2 : F.sqrt (vec3_square_len d) ≠ 0) :
    vec3_square_len ((Ray.new F o d).direction) = 1
    ∧ (∀ (s : Sphere) (ray : Ray) (pt : Vec3),
        s.reflect_ray F ray pt = Ray.new F pt
          (vec3_sub ray.direction
            (vec3_scale (s.normal_to F (Ray.new F pt ray.direction))
              (2 * vec3_dot ray.direction
                (s.normal_to F (Ray.new F pt ray.direction))))))
    ∧ (∀ (p : Plane) (ray : Ray) (pt : Vec3),
        p.reflect_ray F ray pt = Ray.new F pt
          (vec3_sub ray.direction
            (vec3_scale (p.normal_to ray)
              (2 * vec3_dot ray.direction (p.normal_to ray)))))
    ∧ (∀ (v : View) (x y : ℕ), ∃ w : Vec3,
        v.primaryRay F x y = Ray.new F v.cam_position w) := by
  refine ⟨?_, fun s ray pt => rfl, fun p ray pt => rfl,
    fun v x y => ⟨_, rfl⟩⟩
  have hsq : vec3_square_len d ≠ 0 := by
    intro h0
    exact h2 (mul_self_eq_zero.mp (h1.trans h0))
  simp only [Ray.new, vec3_normalized, vec3_len, vec3_square_len_scale]
  field_simp
  linarith [h1]

/-- C5: with `max_depth = 0` the bounce loop never runs, so every pixel of
the rendered buffer quantizes a zero accumulator and equals (0, 0, 0). -/
theorem render_depth_zero (F : FloatOps) (v : View) (scene : Scene)
    (h : v.max_depth = 0) :
    (∀ x y : ℕ, v.renderPixel F scene x y = ⟨0, 0, 0⟩)
    ∧ v.render F scene = (List.range v.image_width).map
        (fun _ => (List.range v.image_height).map
          (fun _ => (⟨0, 0, 0⟩ : Rgb))) := by
  have hch : quantizeChannel 0 = 0 := by
    norm_num [quantizeChannel, f32_to_u8]
  have hq : quantize ⟨0, 0, 0⟩ = ⟨0, 0, 0⟩ := by
    simp [quantize, hch]
  have hp : ∀ x y : ℕ, v.renderPixel F scene x y = ⟨0, 0, 0⟩ := by
    intro x y
    simp only [View.renderPixel, h, colorLoop]
    exact hq
  exact ⟨hp, by simp only [View.render, hp]⟩

theorem render_depth_zero_witness :
    View.renderPixel evalF view0 scene0 0 0 = ⟨0, 0, 0⟩ :=
  (render_depth_zero evalF view0 scene0 rfl).1 0 0

/-! ### Bridging lemmas for `WithTop` numerals and concrete evaluations -/

theorem untop'_ofNat_q (n : ℕ) [n.AtLeastTwo] :
    WithTop.untop' (0 : ℚ) (no_index (OfNat.ofNat n)) = OfNat.ofNat n := rfl

theorem ofNat_lt_top_q (n : ℕ) [n.AtLeastTwo] :
    (no_index (OfNat.ofNat n) : WithTop ℚ) < ⊤ := WithTop.coe_lt_top _

theorem quantizeChannel_zero : quantizeChannel 0 = 0 := by
  norm_num [quantizeChannel, f32_to_u8]

theorem quantize_zero : quantize ⟨0, 0, 0⟩ = ⟨0, 0, 0⟩ := by
  simp [quantize, quantizeChannel_zero]

theorem objNear_intersect_eval :
    Object.intersect evalF objNear rayZ = (((2 : ℚ) : WithTop ℚ), ⟨0, 0, 2⟩) := by
  norm_num [Object.intersect, objNear, Sphere.intersect, Sphere.new, rayZ,
    vec3_sub, vec3_dot, vec3_square_len, vec3_add, vec3_scale, evalF,
    untop'_ofNat_q]

theorem oneSphere_intersect_eval :
    Object.intersect evalF oneSphere rayZ = (((4 : ℚ) : WithTop ℚ), ⟨0, 0, 4⟩) := by
  norm_num [Object.intersect, oneSphere, Sphere.intersect, Sphere.new, rayZ,
    vec3_sub, vec3_dot, vec3_square_len, vec3_add, vec3_scale, evalF,
    untop'_ofNat_q]

theorem sceneC7_trace_eval : View.trace evalF sceneC7 rayZ =
    some (⟨0, 0, 4⟩, ((4 : ℚ) : WithTop ℚ), oneSphere) := by
  norm_num [View.trace, traceAux, sceneC7, oneSphere, Object.intersect,
    Sphere.intersect, Sphere.new, rayZ, vec3_sub, vec3_dot, vec3_square_len,
    vec3_add, vec3_scale, evalF, untop'_ofNat_q, ofNat_lt_top_q]

theorem corner_ray_eval :
    view8.primaryRay evalF 0 0 = ⟨⟨-2/3, 2/3, 1/3⟩, ⟨0, 0, 0⟩⟩ := by
  norm_num [View.primaryRay, view8, View.new, evalF, vec3_cross,
    vec3_normalized, vec3_len, vec3_square_len, vec3_dot, vec3_scale,
    vec3_add, Ray.new]

theorem corner_trace_none :
    View.trace evalF scene8 (view8.primaryRay evalF 0 0) = none := by
  rw [corner_ray_eval]
  norm_num [View.trace, traceAux, scene8, Object.intersect, Sphere.intersect,
    Sphere.new, vec3_sub, vec3_dot, vec3_square_len, vec3_add, vec3_scale,
    evalF]

/-- When the primary ray of a pixel hits nothing, the bounce loop stops at
its first step and the pixel quantizes the untouched zero accumulator. -/
theorem renderPixel_of_trace_none (F : FloatOps) (v : View) (scene : Scene)
    (x y : ℕ) (h : View.trace F scene (v.primaryRay F x y) = none) :
    v.renderPixel F scene x y = ⟨0, 0, 0⟩ := by
  unfold View.renderPixel
  cases hd : v.max_depth with
  | zero => simpa [colorLoop] using quantize_zero
  | succ n =>
    have hct : v.color_trace F scene 1 (v.primaryRay F x y) ⟨0, 0, 0⟩ =
        (false, 1, v.primaryRay F x y, ⟨0, 0, 0⟩) := by
      simp only [View.color_trace, h]
    simp only [colorLoop]
    rw [if_pos (show (0 : ℚ) < 1 by norm_num), hct]
    simpa using quantize_zero

/-! ### Witnesses for the hypothesised theorems above -/

theorem sphere_intersect_spec_witness :
    ((Sphere.new ⟨0, 0, 5⟩ ⟨255, 0, 0⟩ 1 (9 / 10) 0).intersect evalF rayZ).1 =
      ((5 - 1 : ℚ) : WithTop ℚ) :=
  (sphere_intersect_spec evalF ⟨0, 0, 5⟩ ⟨255, 0, 0⟩ 1 (9 / 10) 0 rayZ).2.2 5
    (by norm_num [rayZ, vec3_dot])
    (by norm_num [rayZ, vec3_sub, vec3_scale])
    (by norm_num) (by norm_num)
    (by norm_num [evalF])

theorem plane_intersect_spec_witness :
    ((Plane.mk ⟨0, 0, 2⟩ ⟨0, 255, 0⟩ ⟨0, 0, 1⟩ ⊤ ⊤ (6 / 10) 0).intersect
      evalF rayZ).1 =
      ((vec3_dot (vec3_sub ⟨0, 0, 2⟩ rayZ.origin) ⟨0, 0, 1⟩ /
        vec3_dot rayZ.direction ⟨0, 0, 1⟩ : ℚ) : WithTop ℚ) :=
  (plane_intersect_spec evalF ⟨0, 0, 2⟩ ⟨0, 255, 0⟩ ⟨0, 0, 1⟩ ⊤ ⊤ (6 / 10) 0
      rayZ).2.1
    (by norm_num [rayZ, vec3_dot])
    (by norm_num [rayZ, vec3_dot, vec3_sub])

theorem color_trace_spec_witness :
    View.color_trace evalF view0 scene0 1 rayZ ⟨0, 0, 0⟩ =
      (false, 1, rayZ, ⟨0, 0, 0⟩)
    ∧ View.color_trace evalF view0 sceneC7 1 rayZ ⟨0, 0, 0⟩ =
        (true, 1 * oneSphere.get_specular,
          oneSphere.reflect_ray evalF rayZ ⟨0, 0, 4⟩,
          ⟨0 + (oneSphere.get_color.r : ℚ) / 255 *
              (view0.lambert_shade evalF sceneC7 oneSphere ⟨0, 0, 4⟩) *
              oneSphere.get_lambert * 1,
            0 + (oneSphere.get_color.g : ℚ) / 255 *
              (view0.lambert_shade evalF sceneC7 oneSphere ⟨0, 0, 4⟩) *
              oneSphere.get_lambert * 1,
            0 + (oneSphere.get_color.b : ℚ) / 255 *
              (view0.lambert_shade evalF sceneC7 oneSphere ⟨0, 0, 4⟩) *
              oneSphere.get_lambert * 1⟩) :=
  ⟨(color_trace_spec evalF view0 scene0 1 rayZ ⟨0, 0, 0⟩).1 rfl,
    (color_trace_spec evalF view0 sceneC7 1 rayZ ⟨0, 0, 0⟩).2 ⟨0, 0, 4⟩
      ((4 : ℚ) : WithTop ℚ) oneSphere sceneC7_trace_eval⟩

theorem quantize_saturates_witness :
    quantizeChannel 2 = 255 ∧ quantizeChannel (-1) = 0 ∧
      quantizeChannel (1 / 2) = ((1 / 2 : ℚ) * 255).floor.toNat :=
  ⟨(quantize_saturates evalF 2).1 (by norm_num),
    (quantize_saturates evalF (-1)).2.1 (by norm_num),
    (quantize_saturates evalF (1 / 2)).2.2.1 (by norm_num) (by norm_num)⟩

theorem ray_direction_unit_witness :
    vec3_square_len ((Ray.new evalF ⟨0, 0, 0⟩ ⟨0, 0, 2⟩).direction) = 1 :=
  (ray_direction_unit evalF ⟨0, 0, 0⟩ ⟨0, 0, 2⟩
    (by norm_num [vec3_square_len, vec3_dot, evalF])
    (by norm_num [vec3_square_len, vec3_dot, evalF])).1

/-- C6 (amended): a pixel whose primary ray hits no geometry renders as
exactly (0, 0, 0) regardless of the configured background color: the
background is never composited. -/
theorem render_miss_black (F : FloatOps) (v : View) (scene : Scene)
    (x y : ℕ) (h : View.trace F scene (v.primaryRay F x y) = none) :
    v.renderPixel F scene x y = ⟨0, 0, 0⟩ :=
  renderPixel_of_trace_none F v scene x y h

theorem render_miss_black_witness :
    View.renderPixel evalF view8 scene8 0 0 = ⟨0, 0, 0⟩ :=
  render_miss_black evalF view8 scene8 0 0 corner_trace_none

/-- C6 counterexample: in the end-to-end scene (one red sphere with
lambert 0.9 and specular 0, one light of intensity 20 in front of it,
camera facing it) with a non-black configured background, the corner pixel
(0, 0) hits no geometry yet renders as (0, 0, 0), not the configured
background color. -/
theorem background_not_composited :
    View.trace evalF scene8 (view8.primaryRay evalF 0 0) = none
    ∧ view8.background = ⟨50, 100, 200⟩
    ∧ View.renderPixel evalF view8 scene8 0 0 = ⟨0, 0, 0⟩
    ∧ View.renderPixel evalF view8 scene8 0 0 ≠ view8.background := by
  refine ⟨corner_trace_none, rfl,
    renderPixel_of_trace_none evalF view8 scene8 0 0 corner_trace_none, ?_⟩
  rw [renderPixel_of_trace_none evalF view8 scene8 0 0 corner_trace_none]
  simp [view8, View.new]

/-! ### C4: the lambert shading accumulation -/

theorem lambertBody_eq (F : FloatOps) (v : View) (scene : Scene) (o : Object)
    (point : Vec3) (acc : ℚ) (light : Light) :
    lambertBody F v scene o point acc light =
      acc + lightTerm F v scene o point light := by
  simp only [lambertBody, lightTerm]
  split_ifs <;> ring

theorem lambert_foldl (F : FloatOps) (v : View) (scene : Scene) (o : Object)
    (point : Vec3) :
    ∀ (l : List Light) (acc : ℚ),
      l.foldl (lambertBody F v scene o point) acc =
        acc + (l.map (lightTerm F v scene o point)).sum := by
  intro l
  induction l with
  | nil => intro acc; simp
  | cons hd tl ih =>
    intro acc
    simp only [List.foldl_cons, List.map_cons, List.sum_cons, lambertBody_eq,
      ih]
    ring

/-- C4: `lambert_shade` equals the sum, over the lights, of the per-light
term (zero for a shadowed light, otherwise the positive part of
`contribution * intensity / (4 pi dist^2)`), clamped to at most 1; and a
light with a blocking intersection strictly closer than the light
contributes exactly zero. -/
theorem lambert_shade_spec (F : FloatOps) (v : View) (scene : Scene)
    (o : Object) (point : Vec3) :
    v.lambert_shade F scene o point =
      min ((scene.lights.map (lightTerm F v scene o point)).sum) 1
    ∧ (∀ light ∈ scene.lights,
        (∃ i ∈ View.all_intersects F scene
            (Ray.new F
              (vec3_add point (vec3_scale
                (vec3_normalized F (vec3_sub light.position point))
                v.shadow_bias))
              (vec3_normalized F (vec3_sub light.position point))),
          i < vec3_len F (vec3_sub light.position point)) →
        lightTerm F v scene o point light = 0) := by
  constructor
  · simp only [View.lambert_shade]
    rw [lambert_foldl, zero_add]
  · intro light _ hex
    obtain ⟨i, hmem, hlt⟩ := hex
    have hany : (View.all_intersects F scene
        (Ray.new F
          (vec3_add point (vec3_scale
            (vec3_normalized F (vec3_sub light.position point))
            v.shadow_bias))
          (vec3_normalized F (vec3_sub light.position point)))).any
        (fun i => decide (i < vec3_len F (vec3_sub light.position point))) =
          true :=
      List.any_eq_true.mpr ⟨i, hmem, by simpa using hlt⟩
    simp only [lightTerm, hany, if_true]

theorem lambert_shade_spec_witness :
    lightTerm evalF view0 sceneB objNear ⟨0, 0, 0⟩ ⟨⟨0, 0, 3⟩, 20⟩ = 0 :=
  (lambert_shade_spec evalF view0 sceneB objNear ⟨0, 0, 0⟩).2 ⟨⟨0, 0, 3⟩, 20⟩
    (by simp [sceneB])
    ⟨1999 / 1000,
      by
        have hray : Ray.new evalF
            (vec3_add ⟨0, 0, 0⟩ (vec3_scale
              (vec3_normalized evalF
                (vec3_sub (Light.mk ⟨0, 0, 3⟩ 20).position ⟨0, 0, 0⟩))
              view0.shadow_bias))
            (vec3_normalized evalF
              (vec3_sub (Light.mk ⟨0, 0, 3⟩ 20).position ⟨0, 0, 0⟩)) =
            ⟨⟨0, 0, 1⟩, ⟨0, 0, 1 / 1000⟩⟩ := by
          norm_num [Ray.new, vec3_normalized, vec3_len, vec3_square_len,
            vec3_dot, vec3_sub, vec3_add, vec3_scale, evalF, view0]
        rw [hray]
        have hint : Object.intersect evalF objNear ⟨⟨0, 0, 1⟩, ⟨0, 0, 1 / 1000⟩⟩ =
            (((1999 / 1000 : ℚ) : WithTop ℚ),
              vec3_add ⟨0, 0, 1 / 1000⟩ (vec3_scale ⟨0, 0, 1⟩ (1999 / 1000))) :=
          sphere_hit_eval evalF (Sphere.new ⟨0, 0, 3⟩ ⟨255, 0, 0⟩ 1 1 0)
            ⟨⟨0, 0, 1⟩, ⟨0, 0, 1 / 1000⟩⟩ (1999 / 1000)
            (by norm_num [Sphere.new, vec3_sub, vec3_dot])
            (by norm_num [Sphere.new, vec3_sub, vec3_dot, vec3_square_len])
            (by norm_num [Sphere.new, vec3_sub, vec3_dot, vec3_square_len,
              evalF])
        simp only [View.all_intersects, sceneB, List.foldl_cons,
          List.foldl_nil, hint]
        rw [if_pos ⟨by exact_mod_cast (by norm_num : (0 : ℚ) < 1999 / 1000),
          WithTop.coe_ne_top⟩]
        simp [List.insertionSort, List.orderedInsert, WithTop.untop'_coe],
      by norm_num [vec3_len, vec3_square_len, vec3_sub, vec3_dot, evalF]⟩

/-! ### C8: the sorted list of positive finite intersections -/

theorem all_intersects_collect (F : FloatOps) (ray : Ray) :
    ∀ (l : List Object) (acc : List ℚ),
      l.foldl (fun acc o =>
        if 0 < (o.intersect F ray).1 ∧ (o.intersect F ray).1 ≠ ⊤
        then acc ++ [(o.intersect F ray).1.untop' 0] else acc) acc =
      acc ++ l.filterMap (fun o =>
        if 0 < (o.intersect F ray).1 ∧ (o.intersect F ray).1 ≠ ⊤
        then some ((o.intersect F ray).1.untop' 0) else none) := by
  intro l
  induction l with
  | nil => intro acc; simp
  | cons hd tl ih =>
    intro acc
    by_cases h : 0 < (hd.intersect F ray).1 ∧ (hd.intersect F ray).1 ≠ ⊤
    · simp only [List.foldl_cons, List.filterMap_cons, if_pos h, ih]
      simp
    · simp only [List.foldl_cons, List.filterMap_cons, if_neg h, ih]

/-- C8: `all_intersects` returns exactly the positive finite intersection
distances of the objects of the scene (as a multiset: a permutation of the
filter over the scan order), arranged in ascending order. -/
theorem all_intersects_spec (F : FloatOps) (scene : Scene) (ray : Ray) :
    (View.all_intersects F scene ray).Sorted (· ≤ ·)
    ∧ List.Perm (View.all_intersects F scene ray)
        (scene.objects.filterMap (fun o =>
          if 0 < (o.intersect F ray).1 ∧ (o.intersect F ray).1 ≠ ⊤
          then some ((o.intersect F ray).1.untop' 0) else none)) := by
  constructor
  · exact List.sorted_insertionSort (· ≤ ·) _
  · have hperm : List.Perm (View.all_intersects F scene ray)
        (scene.objects.foldl (fun acc o =>
          if 0 < (o.intersect F ray).1 ∧ (o.intersect F ray).1 ≠ ⊤
          then acc ++ [(o.intersect F ray).1.untop' 0] else acc) []) :=
      List.perm_insertionSort (· ≤ ·) _
    rw [all_intersects_collect F ray scene.objects []] at hperm
    simpa using hperm

/-! ### C1: the nearest-hit scan -/

/-- Invariant of the `trace` scan: starting from threshold `m` and
candidate `acc`, either no remaining object beats `m` and the candidate
is returned unchanged, or the result is the first object attaining the
strict minimum below `m`, no earlier object being as close and no later
object strictly closer. -/
theorem traceAux_char (F : FloatOps) (ray : Ray) :
    ∀ (objs : List Object) (m : WithTop ℚ)
      (acc : Option (Vec3 × WithTop ℚ × Object)),
      ((∀ o ∈ objs,
          ¬((o.intersect F ray).1 < m ∧ 0 < (o.intersect F ray).1)) ∧
        traceAux F ray objs m acc = acc)
      ∨ (∃ l1 o2 l2, objs = l1 ++ o2 :: l2
          ∧ (o2.intersect F ray).1 < m ∧ 0 < (o2.intersect F ray).1
          ∧ (∀ p ∈ l1, ¬((p.intersect F ray).1 ≤ (o2.intersect F ray).1 ∧
              0 < (p.intersect F ray).1))
          ∧ (∀ q ∈ l2, ¬((q.intersect F ray).1 < (o2.intersect F ray).1 ∧
              0 < (q.intersect F ray).1))
          ∧ traceAux F ray objs m acc =
              some ((o2.intersect F ray).2, (o2.intersect F ray).1, o2)) := by
  intro objs
  induction objs with
  | nil => intro m acc; left; exact ⟨by simp, rfl⟩
  | cons o rest ih =>
    intro m acc
    by_cases hc : (o.intersect F ray).1 < m ∧ 0 < (o.intersect F ray).1
    · have hstep : traceAux F ray (o :: rest) m acc =
          traceAux F ray rest (o.intersect F ray).1
            (some ((o.intersect F ray).2, (o.intersect F ray).1, o)) := by
        simp only [traceAux, if_pos hc]
      rcases ih (o.intersect F ray).1
          (some ((o.intersect F ray).2, (o.intersect F ray).1, o)) with
        ⟨hall, heq⟩ | ⟨l1, o2, l2, heq, hlt, hpos, hpre, hsuf, hres⟩
      · right
        exact ⟨[], o, rest, rfl, hc.1, hc.2, by simp, hall,
          by rw [hstep, heq]⟩
      · right
        refine ⟨o :: l1, o2, l2, by simp [heq], lt_trans hlt hc.1, hpos, ?_,
          hsuf, by rw [hstep, hres]⟩
        intro p hp
        rcases List.mem_cons.mp hp with rfl | hp2
        · rintro ⟨hle, -⟩
          exact absurd (lt_of_lt_of_le hlt hle) (lt_irrefl _)
        · exact hpre p hp2
    · have hstep : traceAux F ray (o :: rest) m acc =
          traceAux F ray rest m acc := by
        simp only [traceAux, if_neg hc]
      rcases ih m acc with
        ⟨hall, heq⟩ | ⟨l1, o2, l2, heq, hlt, hpos, hpre, hsuf, hres⟩
      · left
        refine ⟨?_, by rw [hstep, heq]⟩
        intro p hp
        rcases List.mem_cons.mp hp with rfl | hp2
        · exact hc
        · exact hall p hp2
      · right
        refine ⟨o :: l1, o2, l2, by simp [heq], hlt, hpos, ?_, hsuf,
          by rw [hstep, hres]⟩
        intro p hp
        rcases List.mem_cons.mp hp with rfl | hp2
        · rintro ⟨hle, hppos⟩
          exact hc ⟨lt_of_le_of_lt hle hlt, hppos⟩
        · exact hpre p hp2

/-- C1: `trace` returns `None` exactly when no object has a finite
positive intersection distance; a returned hit is the intersection of the
returned object, has finite positive distance, is a minimum over all
finite positive distances in the scene, and is the first object of the
scan attaining it; and over two objects hit at distances d1 < d2 on the
same ray it returns the d1 object under either insertion order. -/
theorem trace_nearest (F : FloatOps) (scene : Scene) (ray : Ray) :
    (View.trace F scene ray = none ↔
      ∀ o ∈ scene.objects,
        ¬(0 < (o.intersect F ray).1 ∧ (o.intersect F ray).1 ≠ ⊤))
    ∧ (∀ (hp : Vec3) (d : WithTop ℚ) (o : Object),
        View.trace F scene ray = some (hp, d, o) →
        o.intersect F ray = (d, hp) ∧ 0 < d ∧ d ≠ ⊤
        ∧ (∀ p ∈ scene.objects,
            0 < (p.intersect F ray).1 ∧ (p.intersect F ray).1 ≠ ⊤ →
            d ≤ (p.intersect F ray).1)
        ∧ (∃ l1 l2, scene.objects = l1 ++ o :: l2
            ∧ ∀ p ∈ l1, ¬(0 < (p.intersect F ray).1 ∧
                (p.intersect F ray).1 ≤ d)))
    ∧ (∀ (o1 o2 : Object) (hp1 hp2 : Vec3) (d1 d2 : WithTop ℚ)
        (ls : List Light),
        o1.intersect F ray = (d1, hp1) → o2.intersect F ray = (d2, hp2) →
        0 < d1 → d1 < d2 → d1 ≠ ⊤ →
        View.trace F ⟨[o1, o2], ls⟩ ray = some (hp1, d1, o1)
        ∧ View.trace F ⟨[o2, o1], ls⟩ ray = some (hp1, d1, o1)) := by
  refine ⟨⟨?_, ?_⟩, ?_, ?_⟩
  · intro hn o ho hcon
    rcases traceAux_char F ray scene.objects ⊤ none with
      ⟨hall, -⟩ | ⟨l1, o2, l2, heq, hlt, hpos, hpre, hsuf, hres⟩
    · exact hall o ho ⟨WithTop.lt_top_iff_ne_top.mpr hcon.2, hcon.1⟩
    · rw [View.trace, hres] at hn
      exact Option.noConfusion hn
  · intro hall
    rcases traceAux_char F ray scene.objects ⊤ none with
      ⟨-, heq⟩ | ⟨l1, o2, l2, heq, hlt, hpos, hpre, hsuf, hres⟩
    · rw [View.trace, heq]
    · exfalso
      have ho2 : o2 ∈ scene.objects := by
        rw [heq]
        exact List.mem_append_right _ (List.mem_cons_self _ _)
      exact hall o2 ho2 ⟨hpos, WithTop.lt_top_iff_ne_top.mp hlt⟩
  · intro hp d o hsome
    rw [View.trace] at hsome
    rcases traceAux_char F ray scene.objects ⊤ none with
      ⟨-, heq⟩ | ⟨l1, o2, l2, heq, hlt, hpos, hpre, hsuf, hres⟩
    · rw [heq] at hsome
      exact Option.noConfusion hsome
    · rw [hres] at hsome
      have hinj := Option.some.inj hsome
      obtain ⟨h2, h1, ho⟩ :
          (o2.intersect F ray).2 = hp ∧ (o2.intersect F ray).1 = d ∧
            o2 = o := by
        rw [Prod.ext_iff, Prod.ext_iff] at hinj
        exact ⟨hinj.1, hinj.2.1, hinj.2.2⟩
      subst h2; subst h1; subst ho
      refine ⟨rfl, hpos, WithTop.lt_top_iff_ne_top.mp hlt, ?_, ?_⟩
      · intro p hmem hpcond
        rw [heq] at hmem
        rcases List.mem_append.mp hmem with hl1 | hco
        · by_contra hnd
          exact hpre p hl1 ⟨(not_le.mp hnd).le, hpcond.1⟩
        · rcases List.mem_cons.mp hco with rfl | hl2
          · exact le_refl _
          · exact le_of_not_lt fun hlt2 => hsuf p hl2 ⟨hlt2, hpcond.1⟩
      · exact ⟨l1, l2, heq, fun p hp1 hcontra => hpre p hp1
          ⟨hcontra.2, hcontra.1⟩⟩
  · intro o1 o2 hp1 hp2 d1 d2 ls h1 h2 hpos hlt hne
    have e1 : d1 < ⊤ := WithTop.lt_top_iff_ne_top.mpr hne
    constructor
    · show traceAux F ray [o1, o2] ⊤ none = some (hp1, d1, o1)
      simp only [traceAux, h1, h2]
      rw [if_pos ⟨e1, hpos⟩]
      rw [if_neg (fun hc => absurd hc.1 (not_lt.mpr hlt.le))]
    · show traceAux F ray [o2, o1] ⊤ none = some (hp1, d1, o1)
      simp only [traceAux, h1, h2]
      by_cases hc2 : (d2 : WithTop ℚ) < ⊤ ∧ (0 : WithTop ℚ) < d2
      · rw [if_pos hc2, if_pos ⟨hlt, hpos⟩]
      · rw [if_neg hc2, if_pos ⟨e1, hpos⟩]

theorem trace_nearest_witness :
    View.trace evalF ⟨[objNear, oneSphere], []⟩ rayZ =
      some (⟨0, 0, 2⟩, ((2 : ℚ) : WithTop ℚ), objNear)
    ∧ View.trace evalF ⟨[oneSphere, objNear], []⟩ rayZ =
      some (⟨0, 0, 2⟩, ((2 : ℚ) : WithTop ℚ), objNear) :=
  (trace_nearest evalF ⟨[objNear, oneSphere], []⟩ rayZ).2.2 objNear oneSphere
    ⟨0, 0, 2⟩ ⟨0, 0, 4⟩ ((2 : ℚ) : WithTop ℚ) ((4 : ℚ) : WithTop ℚ) []
    objNear_intersect_eval oneSphere_intersect_eval
    (by exact_mod_cast (by norm_num : (0 : ℚ) < 2))
    (by exact_mod_cast (by norm_num : (2 : ℚ) < 4))
    WithTop.coe_ne_top
